import Mathlib

/-!
Verification of the bodyfile v3 codec (`src/common/bodyfile/bodyfile3.rs`).

Strings are modelled as `List Char`.  `str::parse::<u64>` and
`str::parse::<i64>` are modelled by `parseU64` and `parseI64`, which accept an
optional sign followed by one or more ASCII decimal digits and enforce the
64-bit range.  `line.split('|')` is modelled by `splitPipe`; `join("|")` by
`joinPipe`.  The record type, its constructor `new`, the `Display`
implementation `format`, and the parser `try_from` are direct translations of
the source.
-/

namespace Bodyfile

/-- Decision of "is an ASCII decimal digit", as used by Rust integer parsing. -/
def isDigitChar (c : Char) : Bool := 48 ≤ c.toNat && c.toNat ≤ 57

/-- Value denoted by a list of decimal digit characters, most significant first. -/
def digitsVal (l : List Char) : Nat :=
  l.foldl (fun a c => a * 10 + (c.toNat - 48)) 0

/-- Parse a nonempty all-digit string to its (unbounded) value; `none` otherwise. -/
def parseDigits (ds : List Char) : Option Nat :=
  if ds.isEmpty then none
  else if ds.all isDigitChar then some (digitsVal ds) else none

/-- Rust unsigned parsing accepts one optional leading plus sign. -/
def dropPlusSign (s : List Char) : List Char :=
  match s with
  | [] => []
  | c :: rest => if c = '+' then rest else c :: rest

/-- Model of Rust `str::parse::<u64>`: optional leading plus, ASCII digits,
value below `2 ^ 64`. -/
def parseU64 (s : List Char) : Option Nat :=
  match parseDigits (dropPlusSign s) with
  | none => none
  | some n => if n < 2 ^ 64 then some n else none

/-- Model of Rust `str::parse::<i64>`: optional sign, ASCII digits, value in
the signed 64-bit range. -/
def parseI64 (s : List Char) : Option Int :=
  match s with
  | [] => none
  | c :: rest =>
    if c = '-' then
      match parseDigits rest with
      | none => none
      | some n => if n ≤ 2 ^ 63 then some (-(n : Int)) else none
    else
      match parseDigits (if c = '+' then rest else c :: rest) with
      | none => none
      | some n => if n < 2 ^ 63 then some ((n : Int)) else none

/-- Model of Rust `line.split('|')`: split a character list at every pipe,
keeping empty segments. -/
def splitPipe : List Char → List (List Char)
  | [] => [[]]
  | c :: cs =>
    if c = '|' then [] :: splitPipe cs
    else
      match splitPipe cs with
      | [] => [[c]]
      | s :: rest => (c :: s) :: rest

/-- Model of Rust `segments.join("|")`. -/
def joinPipe : List (List Char) → List Char
  | [] => []
  | [x] => x
  | x :: xs => x ++ '|' :: joinPipe xs

/-- Digit character for a value below ten (clamped to nine above that). -/
def digitChar (d : Nat) : Char :=
  match d with
  | 0 => '0' | 1 => '1' | 2 => '2' | 3 => '3' | 4 => '4'
  | 5 => '5' | 6 => '6' | 7 => '7' | 8 => '8' | _ => '9'

/-- Fuel-driven digit emission; the fuel only bounds the recursion depth. -/
def natToStringAux : Nat → Nat → List Char
  | 0, _ => []
  | fuel + 1, n =>
    if n < 10 then [digitChar n]
    else natToStringAux fuel (n / 10) ++ [digitChar (n % 10)]

/-- Decimal rendering of a natural number, as Rust `Display` for `u64`. -/
def natToString (n : Nat) : List Char := natToStringAux (n + 1) n

/-- Decimal rendering of an integer, as Rust `Display` for `i64`. -/
def intToString (i : Int) : List Char :=
  if i < 0 then '-' :: natToString (-i).toNat else natToString i.toNat

/-- The record held by one bodyfile line (struct `Bodyfile3Line`). -/
structure Bodyfile3Line where
  md5 : List Char
  name : List Char
  inode : List Char
  mode_as_string : List Char
  uid : Nat
  gid : Nat
  size : Nat
  atime : Int
  mtime : Int
  ctime : Int
  crtime : Int
deriving DecidableEq

/-- Translation of `Bodyfile3Line::new`: the empty bodyfile line. -/
def Bodyfile3Line.new : Bodyfile3Line where
  md5 := "0".data
  name := "".data
  inode := "0".data
  mode_as_string := "".data
  uid := 0
  gid := 0
  size := 0
  atime := -1
  mtime := -1
  ctime := -1
  crtime := -1

/-- Translation of the `Default` impl, which delegates to `new`. -/
def Bodyfile3Line.defaultLine : Bodyfile3Line := Bodyfile3Line.new

/-- Translation of the `Display` impl: the eleven fields joined by pipes. -/
def format (b : Bodyfile3Line) : List Char :=
  b.md5 ++ '|' :: (b.name ++ '|' :: (b.inode ++ '|' :: (b.mode_as_string ++
    '|' :: (natToString b.uid ++ '|' :: (natToString b.gid ++
    '|' :: (natToString b.size ++ '|' :: (intToString b.atime ++
    '|' :: (intToString b.mtime ++ '|' :: (intToString b.ctime ++
    '|' :: intToString b.crtime)))))))))

/-- The parser's error taxonomy (enum `Bodyfile3ParserError`). -/
inductive Bodyfile3ParserError where
  | WrongNumberOfColumns
  | IllegalUid
  | IllegalGid
  | IllegalSize
  | IllegalATime
  | IllegalMTime
  | IllegalCTime
  | IllegalCRTime
deriving DecidableEq

instance {ε α : Type} [DecidableEq ε] [DecidableEq α] :
    DecidableEq (Except ε α) := fun
  | .error a, .error b =>
    match decEq a b with
    | isTrue h => isTrue (h ▸ rfl)
    | isFalse h => isFalse (fun he => h (Except.error.inj he))
  | .error _, .ok _ => isFalse Except.noConfusion
  | .ok _, .error _ => isFalse Except.noConfusion
  | .ok a, .ok b =>
    match decEq a b with
    | isTrue h => isTrue (h ▸ rfl)
    | isFalse h => isFalse (fun he => h (Except.ok.inj he))

/-- Translation of the body of `try_from` after the column-count guard
(source lines 318-360); `parts` is the split line. -/
def parseParts (parts : List (List Char)) :
    Except Bodyfile3ParserError Bodyfile3Line :=
  let name_chunks := parts.length - 10
  let md5 := parts.getD 0 []
  let name := joinPipe ((parts.drop 1).take name_chunks)
  let inode := parts.getD (2 + name_chunks - 1) []
  let mode := parts.getD (3 + name_chunks - 1) []
  match parseU64 (parts.getD (4 + name_chunks - 1) []) with
  | none => .error .IllegalUid
  | some uid =>
    match parseU64 (parts.getD (5 + name_chunks - 1) []) with
    | none => .error .IllegalGid
    | some gid =>
      match parseU64 (parts.getD (6 + name_chunks - 1) []) with
      | none => .error .IllegalSize
      | some size =>
        match parseI64 (parts.getD (7 + name_chunks - 1) []) with
        | none => .error .IllegalATime
        | some atime =>
          if atime < -1 then .error .IllegalATime
          else
            match parseI64 (parts.getD (8 + name_chunks - 1) []) with
            | none => .error .IllegalMTime
            | some mtime =>
              if mtime < -1 then .error .IllegalMTime
              else
                match parseI64 (parts.getD (9 + name_chunks - 1) []) with
                | none => .error .IllegalCTime
                | some ctime =>
                  if ctime < -1 then .error .IllegalCTime
                  else
                    match parseI64 (parts.getD (10 + name_chunks - 1) []) with
                    | none => .error .IllegalCRTime
                    | some crtime =>
                      if crtime < -1 then .error .IllegalCRTime
                      else
                        .ok { md5 := md5, name := name, inode := inode,
                              mode_as_string := mode, uid := uid, gid := gid,
                              size := size, atime := atime, mtime := mtime,
                              ctime := ctime, crtime := crtime }

/-- Translation of `TryFrom<&str> for Bodyfile3Line`. -/
def try_from (line : List Char) : Except Bodyfile3ParserError Bodyfile3Line :=
  let parts := splitPipe line
  if parts.length < 11 then .error .WrongNumberOfColumns
  else parseParts parts

/-- Segment used for the field at schema position `k` of a split line. -/
def fieldSegOf (parts : List (List Char)) (k : Nat) : List Char :=
  parts.getD (k + (parts.length - 10) - 1) []

/-- The cascade of `parseParts`, restated through `fieldSegOf`; definitionally
equal to `parseParts` and used for case analysis. -/
def partsResult (parts : List (List Char)) :
    Except Bodyfile3ParserError Bodyfile3Line :=
  match parseU64 (fieldSegOf parts 4) with
  | none => .error .IllegalUid
  | some uid =>
    match parseU64 (fieldSegOf parts 5) with
    | none => .error .IllegalGid
    | some gid =>
      match parseU64 (fieldSegOf parts 6) with
      | none => .error .IllegalSize
      | some size =>
        match parseI64 (fieldSegOf parts 7) with
        | none => .error .IllegalATime
        | some atime =>
          if atime < -1 then .error .IllegalATime
          else
            match parseI64 (fieldSegOf parts 8) with
            | none => .error .IllegalMTime
            | some mtime =>
              if mtime < -1 then .error .IllegalMTime
              else
                match parseI64 (fieldSegOf parts 9) with
                | none => .error .IllegalCTime
                | some ctime =>
                  if ctime < -1 then .error .IllegalCTime
                  else
                    match parseI64 (fieldSegOf parts 10) with
                    | none => .error .IllegalCRTime
                    | some crtime =>
                      if crtime < -1 then .error .IllegalCRTime
                      else
                        .ok { md5 := parts.getD 0 [],
                              name := joinPipe
                                ((parts.drop 1).take (parts.length - 10)),
                              inode := fieldSegOf parts 2,
                              mode_as_string := fieldSegOf parts 3,
                              uid := uid, gid := gid, size := size,
                              atime := atime, mtime := mtime, ctime := ctime,
                              crtime := crtime }

/-- Does this segment parse as a `u64`? -/
def u64Ok (s : List Char) : Bool := (parseU64 s).isSome

/-- Does this segment parse as an `i64` that clears the `-1` floor? -/
def timeOk (s : List Char) : Bool :=
  match parseI64 s with
  | none => false
  | some v => decide (-1 ≤ v)

/-- The ranges §3 of the data model guarantees for a record's numeric
fields: `uid`, `gid`, `size` are `u64` values and the four timestamps are
`i64` values at least `-1`. -/
def InRange (r : Bodyfile3Line) : Prop :=
  r.uid < 2 ^ 64 ∧ r.gid < 2 ^ 64 ∧ r.size < 2 ^ 64 ∧
  (-1 ≤ r.atime ∧ r.atime < 2 ^ 63) ∧ (-1 ≤ r.mtime ∧ r.mtime < 2 ^ 63) ∧
  (-1 ≤ r.ctime ∧ r.ctime < 2 ^ 63) ∧ (-1 ≤ r.crtime ∧ r.crtime < 2 ^ 63)

instance (r : Bodyfile3Line) : Decidable (InRange r) := by
  unfold InRange
  infer_instance

/-- A record whose name embeds a pipe, with pipe-free other text fields. -/
def pipedNameRecord : Bodyfile3Line :=
  { Bodyfile3Line.new with
    name := "ls -l |wc".data, inode := "1".data, mode_as_string := "2".data,
    uid := 3, gid := 4, size := 5, atime := 6, mtime := 7, ctime := 8,
    crtime := 9 }

/-- A record whose `md5`, `inode` and `mode` each embed a pipe while its
`name` is pipe-free. -/
def pipedTextFields : Bodyfile3Line :=
  { Bodyfile3Line.new with
    md5 := "a|b".data, inode := "c|d".data, mode_as_string := "e|f".data }

/-- The record from the `Display` doctest. -/
def sampleRecord : Bodyfile3Line :=
  { md5 := "4bad420da66571dac7f1ace995cc55c6".data,
    name := "sample.txt".data, inode := "87915-128-1".data,
    mode_as_string := "r/rrwxrwxrwx".data, uid := 1003, gid := 500,
    size := 126378, atime := 12341, mtime := 12342, ctime := 12343,
    crtime := 12344 }

/-- A structurally minimal valid line: exactly eleven segments. -/
def minimalLine : List Char := "0||0||0|0|0|-1|-1|-1|-1".data

/-- A line whose gid, size, and all four timestamps are invalid. -/
def multiDefectLine : List Char := "0||0||0|X|Y|-9|-9|-9|-9".data

/-- A line whose uid segment is the negative text `-1`. -/
def negUidLine : List Char := "0||0||-1|0|0|-1|-1|-1|-1".data

/-- A line whose atime segment is `-5`: a valid integer below the floor. -/
def negAtimeLine : List Char := "0||0||0|0|0|-5|-1|-1|-1".data

/-- A line whose uid segment denotes `2 ^ 64`, one above the `u64` range. -/
def hugeUidLine : List Char :=
  "0||0||18446744073709551616|0|0|-1|-1|-1|-1".data

example : splitPipe ("a||b".data) = ["a".data, [], "b".data] := by decide
example : splitPipe [] = [[]] := by decide
example : joinPipe (splitPipe ("x|y|".data)) = "x|y|".data := by decide
example : parseU64 ("18446744073709551615".data) =
    some 18446744073709551615 := by decide
example : parseU64 ("18446744073709551616".data) = none := by decide
example : parseU64 ("-1".data) = none := by decide
example : parseI64 ("-9223372036854775808".data) =
    some (-9223372036854775808) := by decide
example : parseI64 ("9223372036854775808".data) = none := by decide
example : parseI64 ("+7".data) = some 7 := by decide
example : parseI64 ("".data) = none := by decide
example : natToString 907 = ['9', '0', '7'] := by decide
example : intToString (-15) = ['-', '1', '5'] := by decide

example : try_from ("".data) = .error .WrongNumberOfColumns := by decide
example : try_from ("|||||||||".data) = .error .WrongNumberOfColumns := by decide
example :
    try_from ("0|ls -l |wc|1|2|3|4|5|6|7|8|9".data) =
      .ok { md5 := "0".data, name := "ls -l |wc".data, inode := "1".data,
            mode_as_string := "2".data, uid := 3, gid := 4, size := 5,
            atime := 6, mtime := 7, ctime := 8, crtime := 9 } := by decide
example : try_from ("0||0||X|0|0|-1|-1|-1|-1".data) = .error .IllegalUid := by
  decide
example : try_from ("0||0||-1|0|0|-1|-1|-1|-1".data) = .error .IllegalUid := by
  decide
example : try_from ("0||0||0|0|0|-5|-1|-1|-1".data) = .error .IllegalATime := by
  decide
example : try_from ("0||0||0|0|0|-1|-1|-1|-5".data) = .error .IllegalCRTime := by
  decide
example : (try_from ("0||0||1|0|0|5|-1|-1|-1".data)).map Bodyfile3Line.atime =
    .ok 5 := by decide

theorem splitPipe_ne_nil (l : List Char) : splitPipe l ≠ [] := by
  cases l with
  | nil => simp [splitPipe]
  | cons c cs =>
    unfold splitPipe
    split
    · simp
    · split <;> simp

theorem splitPipe_append (a b : List Char) :
    splitPipe (a ++ '|' :: b) = splitPipe a ++ splitPipe b := by
  induction a with
  | nil => simp [splitPipe]
  | cons c cs ih =>
    by_cases hc : c = '|'
    · subst hc
      simp [splitPipe, ih]
    · cases h : splitPipe cs with
      | nil => exact absurd h (splitPipe_ne_nil cs)
      | cons s rest => simp [splitPipe, hc, ih, h]

theorem splitPipe_of_noPipe (a : List Char) (h : ∀ c ∈ a, c ≠ '|') :
    splitPipe a = [a] := by
  induction a with
  | nil => rfl
  | cons c cs ih =>
    have hc : c ≠ '|' := h c (by simp)
    have hcs : ∀ x ∈ cs, x ≠ '|' := fun x hx => h x (by simp [hx])
    simp [splitPipe, hc, ih hcs]

theorem joinPipe_splitPipe (l : List Char) : joinPipe (splitPipe l) = l := by
  induction l with
  | nil => rfl
  | cons c cs ih =>
    by_cases hc : c = '|'
    · subst hc
      cases h : splitPipe cs with
      | nil => exact absurd h (splitPipe_ne_nil cs)
      | cons s rest =>
        rw [show splitPipe ('|' :: cs) = [] :: splitPipe cs from by
          simp [splitPipe]]
        rw [h]
        show ([] : List Char) ++ '|' :: joinPipe (s :: rest) = '|' :: cs
        rw [List.nil_append, ← h, ih]
    · cases h : splitPipe cs with
      | nil => exact absurd h (splitPipe_ne_nil cs)
      | cons s rest =>
        have e : splitPipe (c :: cs) = (c :: s) :: rest := by
          simp [splitPipe, hc, h]
        rw [e]
        rw [h] at ih
        cases rest with
        | nil =>
          show c :: s = c :: cs
          rw [show joinPipe [s] = s from rfl] at ih
          rw [ih]
        | cons t ts =>
          show (c :: s) ++ '|' :: joinPipe (t :: ts) = c :: cs
          rw [show (c :: s) ++ '|' :: joinPipe (t :: ts)
              = c :: joinPipe (s :: t :: ts) from rfl, ih]

theorem getD_append_len {α : Type} (d : α) :
    ∀ (pre post : List α) (j : Nat),
      (pre ++ post).getD (pre.length + j) d = post.getD j d := by
  intro pre
  induction pre with
  | nil => intro post j; simp
  | cons a t ih =>
    intro post j
    have e : (a :: t).length + j = (t.length + j) + 1 := by
      simp [List.length_cons, Nat.add_right_comm]
    rw [e, List.cons_append, List.getD_cons_succ, ih]

theorem take_len_append {α : Type} (pre post : List α) :
    (pre ++ post).take pre.length = pre := by
  induction pre with
  | nil => simp
  | cons a t ih => simp [List.length_cons, List.take_succ_cons, ih]

theorem digitChar_isDigit (d : Nat) (h : d < 10) :
    isDigitChar (digitChar d) = true := by
  interval_cases d <;> decide

theorem digitChar_val (d : Nat) (h : d < 10) :
    (digitChar d).toNat - 48 = d := by
  interval_cases d <;> decide

theorem natToStringAux_fuel :
    ∀ f1 f2 n : Nat, n < f1 → n < f2 →
      natToStringAux f1 n = natToStringAux f2 n := by
  intro f1
  induction f1 with
  | zero => intro f2 n h1 _; omega
  | succ g ih =>
    intro f2 n h1 h2
    cases f2 with
    | zero => omega
    | succ f =>
      by_cases hn : n < 10
      · simp [natToStringAux, hn]
      · have hd : n / 10 < n := Nat.div_lt_self (by omega) (by omega)
        simp only [natToStringAux, if_neg hn]
        rw [ih f (n / 10) (by omega) (by omega)]

theorem natToString_eq (n : Nat) :
    natToString n = if n < 10 then [digitChar n]
      else natToString (n / 10) ++ [digitChar (n % 10)] := by
  by_cases hn : n < 10
  · rw [if_pos hn]
    show (if n < 10 then [digitChar n]
      else natToStringAux n (n / 10) ++ [digitChar (n % 10)]) = [digitChar n]
    rw [if_pos hn]
  · rw [if_neg hn]
    show (if n < 10 then [digitChar n]
        else natToStringAux n (n / 10) ++ [digitChar (n % 10)])
      = natToStringAux (n / 10 + 1) (n / 10) ++ [digitChar (n % 10)]
    rw [if_neg hn]
    have hd : n / 10 < n := Nat.div_lt_self (by omega) (by omega)
    rw [natToStringAux_fuel n (n / 10 + 1) (n / 10) (by omega) (by omega)]

theorem natToString_all_digits (n : Nat) :
    (natToString n).all isDigitChar = true := by
  induction n using Nat.strong_induction_on with
  | _ n ih =>
    rw [natToString_eq]
    by_cases hn : n < 10
    · simp [hn, digitChar_isDigit n hn]
    · have hd : n / 10 < n := Nat.div_lt_self (by omega) (by omega)
      rw [if_neg hn, List.all_append, ih _ hd]
      simp [digitChar_isDigit (n % 10) (Nat.mod_lt _ (by omega))]

theorem natToString_ne_nil (n : Nat) : natToString n ≠ [] := by
  rw [natToString_eq]
  by_cases hn : n < 10 <;> simp [hn]

theorem digitsVal_append_one (l : List Char) (c : Char) :
    digitsVal (l ++ [c]) = digitsVal l * 10 + (c.toNat - 48) := by
  simp [digitsVal, List.foldl_append]

theorem digitsVal_natToString (n : Nat) : digitsVal (natToString n) = n := by
  induction n using Nat.strong_induction_on with
  | _ n ih =>
    rw [natToString_eq]
    by_cases hn : n < 10
    · rw [if_pos hn]
      show digitsVal [digitChar n] = n
      have : digitsVal [digitChar n] = (digitChar n).toNat - 48 := by
        simp [digitsVal]
      rw [this, digitChar_val n hn]
    · have hd : n / 10 < n := Nat.div_lt_self (by omega) (by omega)
      rw [if_neg hn, digitsVal_append_one, ih _ hd,
        digitChar_val _ (Nat.mod_lt _ (by omega))]
      omega

theorem parseDigits_natToString (n : Nat) :
    parseDigits (natToString n) = some n := by
  unfold parseDigits
  rw [if_neg (by simpa [List.isEmpty_iff] using natToString_ne_nil n),
    if_pos (natToString_all_digits n), digitsVal_natToString]

theorem natToString_head_digit (n : Nat) :
    ∀ c t, natToString n = c :: t → isDigitChar c = true := by
  intro c t h
  have hall := natToString_all_digits n
  rw [h, List.all_cons] at hall
  exact (Bool.and_eq_true _ _ |>.mp hall).1

theorem dropPlusSign_natToString (n : Nat) :
    dropPlusSign (natToString n) = natToString n := by
  cases h : natToString n with
  | nil => rfl
  | cons c t =>
    have hc := natToString_head_digit n c t h
    have hne : c ≠ '+' := fun e => absurd (e ▸ hc) (by decide)
    simp [dropPlusSign, hne]

theorem parseU64_natToString (n : Nat) (h : n < 2 ^ 64) :
    parseU64 (natToString n) = some n := by
  unfold parseU64
  rw [dropPlusSign_natToString, parseDigits_natToString]
  show (if n < 2 ^ 64 then some n else none) = some n
  rw [if_pos h]

theorem parseI64_cons (c : Char) (rest : List Char) :
    parseI64 (c :: rest) =
      if c = '-' then
        match parseDigits rest with
        | none => none
        | some n => if n ≤ 2 ^ 63 then some (-(n : Int)) else none
      else
        match parseDigits (if c = '+' then rest else c :: rest) with
        | none => none
        | some n => if n < 2 ^ 63 then some ((n : Int)) else none := rfl

theorem parseI64_intToString (i : Int) (h1 : -(2 ^ 63) ≤ i)
    (h2 : i < 2 ^ 63) : parseI64 (intToString i) = some i := by
  by_cases hi : i < 0
  · unfold intToString
    rw [if_pos hi, parseI64_cons, if_pos rfl, parseDigits_natToString]
    have hb : (-i).toNat ≤ 2 ^ 63 := by omega
    show (if (-i).toNat ≤ 2 ^ 63 then some (-(((-i).toNat : Nat) : Int))
      else none) = some i
    rw [if_pos hb]
    congr 1
    omega
  · unfold intToString
    rw [if_neg hi]
    cases hns : natToString i.toNat with
    | nil => exact absurd hns (natToString_ne_nil _)
    | cons c t =>
      have hc := natToString_head_digit _ c t hns
      have hminus : c ≠ '-' := fun e => absurd (e ▸ hc) (by decide)
      have hplus : c ≠ '+' := fun e => absurd (e ▸ hc) (by decide)
      rw [parseI64_cons, if_neg hminus, if_neg hplus, ← hns,
        parseDigits_natToString]
      have hb : i.toNat < 2 ^ 63 := by omega
      show (if i.toNat < 2 ^ 63 then some ((i.toNat : Nat) : Int)
        else none) = some i
      rw [if_pos hb]
      congr 1
      omega

theorem noPipe_natToString (n : Nat) : ∀ c ∈ natToString n, c ≠ '|' := by
  intro c hc e
  have hall := natToString_all_digits n
  rw [List.all_eq_true] at hall
  have hd := hall c hc
  subst e
  exact absurd hd (by decide)

theorem noPipe_intToString (i : Int) : ∀ c ∈ intToString i, c ≠ '|' := by
  intro c hc
  unfold intToString at hc
  by_cases hi : i < 0
  · rw [if_pos hi] at hc
    rcases List.mem_cons.mp hc with h | h
    · subst h; decide
    · exact noPipe_natToString _ c h
  · rw [if_neg hi] at hc
    exact noPipe_natToString _ c hc

theorem try_from_eq_parseParts (line : List Char)
    (h : ¬ (splitPipe line).length < 11) :
    try_from line = parseParts (splitPipe line) := by
  show (if (splitPipe line).length < 11 then
      (.error .WrongNumberOfColumns :
        Except Bodyfile3ParserError Bodyfile3Line)
    else parseParts (splitPipe line)) = parseParts (splitPipe line)
  exact if_neg h

theorem getD_append_len0 {α : Type} (d : α) (pre post : List α) :
    (pre ++ post).getD pre.length d = post.getD 0 d := by
  simpa using getD_append_len d pre post 0

theorem parseParts_eq_partsResult (parts : List (List Char)) :
    parseParts parts = partsResult parts := rfl

theorem parseParts_ne_wnoc (parts : List (List Char)) :
    parseParts parts ≠ .error .WrongNumberOfColumns := by
  intro h
  rw [parseParts_eq_partsResult] at h
  unfold partsResult at h
  repeat' split at h
  all_goals simp_all

theorem parseParts_err_iff (parts : List (List Char)) :
    (parseParts parts = .error .IllegalUid ↔
      u64Ok (fieldSegOf parts 4) = false)
  ∧ (parseParts parts = .error .IllegalGid ↔
      u64Ok (fieldSegOf parts 4) = true ∧ u64Ok (fieldSegOf parts 5) = false)
  ∧ (parseParts parts = .error .IllegalSize ↔
      u64Ok (fieldSegOf parts 4) = true ∧ u64Ok (fieldSegOf parts 5) = true
      ∧ u64Ok (fieldSegOf parts 6) = false)
  ∧ (parseParts parts = .error .IllegalATime ↔
      u64Ok (fieldSegOf parts 4) = true ∧ u64Ok (fieldSegOf parts 5) = true
      ∧ u64Ok (fieldSegOf parts 6) = true
      ∧ timeOk (fieldSegOf parts 7) = false)
  ∧ (parseParts parts = .error .IllegalMTime ↔
      u64Ok (fieldSegOf parts 4) = true ∧ u64Ok (fieldSegOf parts 5) = true
      ∧ u64Ok (fieldSegOf parts 6) = true
      ∧ timeOk (fieldSegOf parts 7) = true
      ∧ timeOk (fieldSegOf parts 8) = false)
  ∧ (parseParts parts = .error .IllegalCTime ↔
      u64Ok (fieldSegOf parts 4) = true ∧ u64Ok (fieldSegOf parts 5) = true
      ∧ u64Ok (fieldSegOf parts 6) = true
      ∧ timeOk (fieldSegOf parts 7) = true
      ∧ timeOk (fieldSegOf parts 8) = true
      ∧ timeOk (fieldSegOf parts 9) = false)
  ∧ (parseParts parts = .error .IllegalCRTime ↔
      u64Ok (fieldSegOf parts 4) = true ∧ u64Ok (fieldSegOf parts 5) = true
      ∧ u64Ok (fieldSegOf parts 6) = true
      ∧ timeOk (fieldSegOf parts 7) = true
      ∧ timeOk (fieldSegOf parts 8) = true
      ∧ timeOk (fieldSegOf parts 9) = true
      ∧ timeOk (fieldSegOf parts 10) = false) := by
  rw [parseParts_eq_partsResult]
  unfold partsResult
  refine ⟨?_, ?_, ?_, ?_, ?_, ?_, ?_⟩ <;>
  · repeat' split
    all_goals
      simp_all [u64Ok, timeOk, decide_eq_true_eq, decide_eq_false_iff_not]

theorem parseParts_ok_inv (parts : List (List Char)) (r : Bodyfile3Line)
    (h : parseParts parts = .ok r) :
    parseU64 (fieldSegOf parts 4) = some r.uid ∧
    parseU64 (fieldSegOf parts 5) = some r.gid ∧
    parseU64 (fieldSegOf parts 6) = some r.size ∧
    (parseI64 (fieldSegOf parts 7) = some r.atime ∧ ¬ r.atime < -1) ∧
    (parseI64 (fieldSegOf parts 8) = some r.mtime ∧ ¬ r.mtime < -1) ∧
    (parseI64 (fieldSegOf parts 9) = some r.ctime ∧ ¬ r.ctime < -1) ∧
    (parseI64 (fieldSegOf parts 10) = some r.crtime ∧ ¬ r.crtime < -1) := by
  rw [parseParts_eq_partsResult] at h
  unfold partsResult at h
  repeat' split at h
  all_goals
    first
    | (injection h with h2
       subst h2
       simp_all)
    | simp_all

theorem splitPipe_format (r : Bodyfile3Line)
    (hmd5 : ∀ c ∈ r.md5, c ≠ '|')
    (hinode : ∀ c ∈ r.inode, c ≠ '|')
    (hmode : ∀ c ∈ r.mode_as_string, c ≠ '|') :
    splitPipe (format r) =
      r.md5 :: (splitPipe r.name ++
        [r.inode, r.mode_as_string, natToString r.uid, natToString r.gid,
         natToString r.size, intToString r.atime, intToString r.mtime,
         intToString r.ctime, intToString r.crtime]) := by
  unfold format
  rw [splitPipe_append, splitPipe_append, splitPipe_append, splitPipe_append,
    splitPipe_append, splitPipe_append, splitPipe_append, splitPipe_append,
    splitPipe_append, splitPipe_append]
  rw [splitPipe_of_noPipe _ hmd5, splitPipe_of_noPipe _ hinode,
    splitPipe_of_noPipe _ hmode,
    splitPipe_of_noPipe _ (noPipe_natToString r.uid),
    splitPipe_of_noPipe _ (noPipe_natToString r.gid),
    splitPipe_of_noPipe _ (noPipe_natToString r.size),
    splitPipe_of_noPipe _ (noPipe_intToString r.atime),
    splitPipe_of_noPipe _ (noPipe_intToString r.mtime),
    splitPipe_of_noPipe _ (noPipe_intToString r.ctime),
    splitPipe_of_noPipe _ (noPipe_intToString r.crtime)]
  simp

theorem parseParts_shape (m5 : List Char) (sn : List (List Char))
    (i0 m0 us gs ss as ms cs crs : List Char)
    (u g sz : Nat) (a m c cr : Int)
    (hu : parseU64 us = some u) (hg : parseU64 gs = some g)
    (hs : parseU64 ss = some sz)
    (ha : parseI64 as = some a) (ha2 : ¬ a < -1)
    (hm : parseI64 ms = some m) (hm2 : ¬ m < -1)
    (hc : parseI64 cs = some c) (hc2 : ¬ c < -1)
    (hcr : parseI64 crs = some cr) (hcr2 : ¬ cr < -1) :
    parseParts (m5 :: (sn ++ [i0, m0, us, gs, ss, as, ms, cs, crs])) =
      .ok { md5 := m5, name := joinPipe sn, inode := i0,
            mode_as_string := m0, uid := u, gid := g, size := sz,
            atime := a, mtime := m, ctime := c, crtime := cr } := by
  have hnc : (m5 :: (sn ++ [i0, m0, us, gs, ss, as, ms, cs, crs])).length - 10
      = sn.length := by
    simp [List.length_append]
  have i2 : 2 + sn.length - 1 = sn.length + 1 := by omega
  have i3 : 3 + sn.length - 1 = sn.length + 1 + 1 := by omega
  have i4 : 4 + sn.length - 1 = sn.length + 2 + 1 := by omega
  have i5 : 5 + sn.length - 1 = sn.length + 3 + 1 := by omega
  have i6 : 6 + sn.length - 1 = sn.length + 4 + 1 := by omega
  have i7 : 7 + sn.length - 1 = sn.length + 5 + 1 := by omega
  have i8 : 8 + sn.length - 1 = sn.length + 6 + 1 := by omega
  have i9 : 9 + sn.length - 1 = sn.length + 7 + 1 := by omega
  have i10 : 10 + sn.length - 1 = sn.length + 8 + 1 := by omega
  simp only [parseParts, hnc, i2, i3, i4, i5, i6, i7, i8, i9, i10,
    List.getD_cons_succ, List.getD_cons_zero, getD_append_len,
    getD_append_len0, List.drop_one, List.tail_cons, take_len_append,
    hu, hg, hs, ha, hm, hc, hcr, if_neg ha2, if_neg hm2, if_neg hc2,
    if_neg hcr2]

theorem try_from_format_eq (r : Bodyfile3Line)
    (hmd5 : ∀ c ∈ r.md5, c ≠ '|') (hinode : ∀ c ∈ r.inode, c ≠ '|')
    (hmode : ∀ c ∈ r.mode_as_string, c ≠ '|')
    (hu : r.uid < 2 ^ 64) (hg : r.gid < 2 ^ 64) (hs : r.size < 2 ^ 64)
    (ha1 : -1 ≤ r.atime) (ha2 : r.atime < 2 ^ 63)
    (hm1 : -1 ≤ r.mtime) (hm2 : r.mtime < 2 ^ 63)
    (hc1 : -1 ≤ r.ctime) (hc2 : r.ctime < 2 ^ 63)
    (hcr1 : -1 ≤ r.crtime) (hcr2 : r.crtime < 2 ^ 63) :
    try_from (format r) = .ok r := by
  have hsp := splitPipe_format r hmd5 hinode hmode
  have hpos : 1 ≤ (splitPipe r.name).length :=
    List.length_pos.mpr (splitPipe_ne_nil _)
  have hlen : (splitPipe (format r)).length =
      (splitPipe r.name).length + 10 := by
    rw [hsp]
    simp [List.length_append]
  rw [try_from_eq_parseParts _ (by omega), hsp,
    parseParts_shape r.md5 (splitPipe r.name) r.inode r.mode_as_string
      (natToString r.uid) (natToString r.gid) (natToString r.size)
      (intToString r.atime) (intToString r.mtime) (intToString r.ctime)
      (intToString r.crtime) r.uid r.gid r.size r.atime r.mtime r.ctime
      r.crtime
      (parseU64_natToString _ hu) (parseU64_natToString _ hg)
      (parseU64_natToString _ hs)
      (parseI64_intToString _ (by omega) ha2) (by omega)
      (parseI64_intToString _ (by omega) hm2) (by omega)
      (parseI64_intToString _ (by omega) hc2) (by omega)
      (parseI64_intToString _ (by omega) hcr2) (by omega),
    joinPipe_splitPipe]

theorem timeOk_false_of (s : List Char) (v : Int) (hv : parseI64 s = some v)
    (hlt : v < -1) : timeOk s = false := by
  simp only [timeOk, hv, decide_eq_false_iff_not]
  omega

theorem timeOk_true_of (s : List Char) (v : Int) (hv : parseI64 s = some v)
    (hge : -1 ≤ v) : timeOk s = true := by
  simp only [timeOk, hv, decide_eq_true_eq]
  exact hge

theorem u64Ok_false_iff (s : List Char) :
    u64Ok s = false ↔ parseU64 s = none := by
  cases h : parseU64 s <;> simp [u64Ok, h]

theorem u64Ok_true_iff (s : List Char) :
    u64Ok s = true ↔ parseU64 s ≠ none := by
  cases h : parseU64 s <;> simp [u64Ok, h]

theorem parseDigits_all (s : List Char) (n : Nat)
    (h : parseDigits s = some n) :
    s ≠ [] ∧ s.all isDigitChar = true ∧ digitsVal s = n := by
  unfold parseDigits at h
  by_cases he : s.isEmpty
  · rw [if_pos he] at h
    cases h
  · rw [if_neg he] at h
    by_cases ha : s.all isDigitChar
    · rw [if_pos ha] at h
      refine ⟨?_, ha, Option.some.inj h⟩
      intro e
      subst e
      simp at he
    · rw [if_neg ha] at h
      cases h

theorem parseU64_none_of_big (s : List Char) (n : Nat)
    (h : parseDigits s = some n) (hn : 2 ^ 64 ≤ n) : parseU64 s = none := by
  obtain ⟨hne, hall, _⟩ := parseDigits_all s n h
  have hd : dropPlusSign s = s := by
    cases s with
    | nil => exact absurd rfl hne
    | cons c t =>
      have hc : isDigitChar c = true := by
        rw [List.all_cons] at hall
        exact (Bool.and_eq_true _ _ |>.mp hall).1
      have hcp : c ≠ '+' := fun e => absurd (e ▸ hc) (by decide)
      simp [dropPlusSign, hcp]
  unfold parseU64
  rw [hd, h]
  show (if n < 2 ^ 64 then some n else none) = none
  rw [if_neg (by omega)]

theorem parseU64_neg_none (rest : List Char) :
    parseU64 ('-' :: rest) = none := by
  unfold parseU64
  have hd : dropPlusSign ('-' :: rest) = '-' :: rest := by
    simp [dropPlusSign]
  rw [hd]
  have hw : parseDigits ('-' :: rest) = none := by
    unfold parseDigits
    rw [if_neg (by simp)]
    rw [if_neg ?hall]
    case hall =>
      rw [List.all_cons]
      simp [isDigitChar]
  rw [hw]

theorem parseI64_none_of_big (s : List Char) (n : Nat)
    (h : parseDigits (dropPlusSign s) = some n) (hn : 2 ^ 63 ≤ n) :
    parseI64 s = none := by
  cases s with
  | nil => rfl
  | cons c t =>
    rw [parseI64_cons]
    by_cases hc : c = '-'
    · subst hc
      exfalso
      have hd : dropPlusSign ('-' :: t) = '-' :: t := by simp [dropPlusSign]
      rw [hd] at h
      obtain ⟨_, hall, _⟩ := parseDigits_all _ _ h
      rw [List.all_cons] at hall
      exact absurd (Bool.and_eq_true _ _ |>.mp hall).1 (by decide)
    · rw [if_neg hc]
      have hd : dropPlusSign (c :: t) = if c = '+' then t else c :: t := rfl
      rw [← hd, h]
      show (if n < 2 ^ 63 then some ((n : Nat) : Int) else none) = none
      rw [if_neg (by omega)]

theorem parseI64_neg_none_of_big (t : List Char) (n : Nat)
    (h : parseDigits t = some n) (hn : 2 ^ 63 < n) :
    parseI64 ('-' :: t) = none := by
  rw [parseI64_cons, if_pos rfl, h]
  show (if n ≤ 2 ^ 63 then some (-((n : Nat) : Int)) else none) = none
  rw [if_neg (by omega)]

theorem timeOk_false_of_none (s : List Char) (h : parseI64 s = none) :
    timeOk s = false := by
  simp [timeOk, h]

/-- Claim C3: parsing fails with `WrongNumberOfColumns` exactly when the
split yields fewer than eleven segments, and in particular the empty line
and a line of nine empty segments both fail that way. -/
theorem claim_C3_column_guard :
    (∀ line : List Char,
      try_from line = .error .WrongNumberOfColumns ↔
        (splitPipe line).length < 11) ∧
    try_from ("".data) = .error .WrongNumberOfColumns ∧
    try_from ("|||||||||".data) = .error .WrongNumberOfColumns := by
  refine ⟨fun line => ⟨?_, ?_⟩, by decide, by decide⟩
  · intro h
    by_contra hlen
    rw [try_from_eq_parseParts line hlen] at h
    exact parseParts_ne_wnoc _ h
  · intro h
    show (if (splitPipe line).length < 11 then
        (.error .WrongNumberOfColumns :
          Except Bodyfile3ParserError Bodyfile3Line)
      else parseParts (splitPipe line)) = .error .WrongNumberOfColumns
    rw [if_pos h]

/-- Claim C4: with at least eleven segments, validation runs in the fixed
order uid, gid, size, atime, mtime, ctime, crtime, and the parser reports
exactly the first invalid field in that order. -/
theorem claim_C4_validation_order (line : List Char)
    (h : ¬ (splitPipe line).length < 11) :
    (try_from line = .error .IllegalUid ↔
      u64Ok (fieldSegOf (splitPipe line) 4) = false)
  ∧ (try_from line = .error .IllegalGid ↔
      u64Ok (fieldSegOf (splitPipe line) 4) = true
      ∧ u64Ok (fieldSegOf (splitPipe line) 5) = false)
  ∧ (try_from line = .error .IllegalSize ↔
      u64Ok (fieldSegOf (splitPipe line) 4) = true
      ∧ u64Ok (fieldSegOf (splitPipe line) 5) = true
      ∧ u64Ok (fieldSegOf (splitPipe line) 6) = false)
  ∧ (try_from line = .error .IllegalATime ↔
      u64Ok (fieldSegOf (splitPipe line) 4) = true
      ∧ u64Ok (fieldSegOf (splitPipe line) 5) = true
      ∧ u64Ok (fieldSegOf (splitPipe line) 6) = true
      ∧ timeOk (fieldSegOf (splitPipe line) 7) = false)
  ∧ (try_from line = .error .IllegalMTime ↔
      u64Ok (fieldSegOf (splitPipe line) 4) = true
      ∧ u64Ok (fieldSegOf (splitPipe line) 5) = true
      ∧ u64Ok (fieldSegOf (splitPipe line) 6) = true
      ∧ timeOk (fieldSegOf (splitPipe line) 7) = true
      ∧ timeOk (fieldSegOf (splitPipe line) 8) = false)
  ∧ (try_from line = .error .IllegalCTime ↔
      u64Ok (fieldSegOf (splitPipe line) 4) = true
      ∧ u64Ok (fieldSegOf (splitPipe line) 5) = true
      ∧ u64Ok (fieldSegOf (splitPipe line) 6) = true
      ∧ timeOk (fieldSegOf (splitPipe line) 7) = true
      ∧ timeOk (fieldSegOf (splitPipe line) 8) = true
      ∧ timeOk (fieldSegOf (splitPipe line) 9) = false)
  ∧ (try_from line = .error .IllegalCRTime ↔
      u64Ok (fieldSegOf (splitPipe line) 4) = true
      ∧ u64Ok (fieldSegOf (splitPipe line) 5) = true
      ∧ u64Ok (fieldSegOf (splitPipe line) 6) = true
      ∧ timeOk (fieldSegOf (splitPipe line) 7) = true
      ∧ timeOk (fieldSegOf (splitPipe line) 8) = true
      ∧ timeOk (fieldSegOf (splitPipe line) 9) = true
      ∧ timeOk (fieldSegOf (splitPipe line) 10) = false) := by
  rw [try_from_eq_parseParts line h]
  exact parseParts_err_iff (splitPipe line)

/-- Witness for claim C4: a line whose gid and all later fields are invalid
reports only the gid. -/
theorem claim_C4_witness : try_from multiDefectLine = .error .IllegalGid :=
  ((claim_C4_validation_order multiDefectLine (by decide)).2.1).mpr
    (by decide)

/-- Claim C7: the default-constructed record has md5 `"0"`, empty name,
inode `"0"`, empty mode, zero uid, gid and size, and all four timestamps
equal to -1. -/
theorem claim_C7_default_record :
    Bodyfile3Line.defaultLine = Bodyfile3Line.new ∧
    Bodyfile3Line.defaultLine.md5 = ['0'] ∧
    Bodyfile3Line.defaultLine.name = [] ∧
    Bodyfile3Line.defaultLine.inode = ['0'] ∧
    Bodyfile3Line.defaultLine.mode_as_string = [] ∧
    Bodyfile3Line.defaultLine.uid = 0 ∧
    Bodyfile3Line.defaultLine.gid = 0 ∧
    Bodyfile3Line.defaultLine.size = 0 ∧
    Bodyfile3Line.defaultLine.atime = -1 ∧
    Bodyfile3Line.defaultLine.mtime = -1 ∧
    Bodyfile3Line.defaultLine.ctime = -1 ∧
    Bodyfile3Line.defaultLine.crtime = -1 := by decide

/-- Claim C9: once the split yields at least eleven segments, every index
the parser reads is within bounds, and the largest index read is exactly
the last segment of the line. -/
theorem claim_C9_index_safety (line : List Char)
    (h : ¬ (splitPipe line).length < 11) :
    0 < (splitPipe line).length ∧
    ((splitPipe line).length - 10) + 1 ≤ (splitPipe line).length ∧
    (∀ k, 2 ≤ k → k ≤ 10 →
      k + ((splitPipe line).length - 10) - 1 < (splitPipe line).length) ∧
    10 + ((splitPipe line).length - 10) - 1 = (splitPipe line).length - 1 := by
  refine ⟨by omega, by omega, fun k hk2 hk10 => by omega, by omega⟩

/-- Witness for claim C9 at a minimal eleven-segment line. -/
theorem claim_C9_witness :
    10 + ((splitPipe minimalLine).length - 10) - 1
      < (splitPipe minimalLine).length :=
  (claim_C9_index_safety minimalLine (by decide)).2.2.1 10 (by decide)
    (by decide)

/-- Claim C5: when validation reaches a timestamp field whose segment
parses as a signed 64-bit integer `v`, the parser rejects the line with
that field's own error exactly when `v < -1`, and otherwise accepts `v`
for that field; the reachability of each field is expressed by the
validity of the fields checked before it. -/
theorem claim_C5_timestamp_floor (line : List Char) (v : Int)
    (h11 : ¬ (splitPipe line).length < 11)
    (hu : u64Ok (fieldSegOf (splitPipe line) 4) = true)
    (hg : u64Ok (fieldSegOf (splitPipe line) 5) = true)
    (hs : u64Ok (fieldSegOf (splitPipe line) 6) = true) :
    (parseI64 (fieldSegOf (splitPipe line) 7) = some v →
      (v < -1 → try_from line = .error .IllegalATime) ∧
      (-1 ≤ v → try_from line ≠ .error .IllegalATime ∧
        ∀ r, try_from line = .ok r → r.atime = v))
  ∧ (timeOk (fieldSegOf (splitPipe line) 7) = true →
      parseI64 (fieldSegOf (splitPipe line) 8) = some v →
      (v < -1 → try_from line = .error .IllegalMTime) ∧
      (-1 ≤ v → try_from line ≠ .error .IllegalMTime ∧
        ∀ r, try_from line = .ok r → r.mtime = v))
  ∧ (timeOk (fieldSegOf (splitPipe line) 7) = true →
      timeOk (fieldSegOf (splitPipe line) 8) = true →
      parseI64 (fieldSegOf (splitPipe line) 9) = some v →
      (v < -1 → try_from line = .error .IllegalCTime) ∧
      (-1 ≤ v → try_from line ≠ .error .IllegalCTime ∧
        ∀ r, try_from line = .ok r → r.ctime = v))
  ∧ (timeOk (fieldSegOf (splitPipe line) 7) = true →
      timeOk (fieldSegOf (splitPipe line) 8) = true →
      timeOk (fieldSegOf (splitPipe line) 9) = true →
      parseI64 (fieldSegOf (splitPipe line) 10) = some v →
      (v < -1 → try_from line = .error .IllegalCRTime) ∧
      (-1 ≤ v → try_from line ≠ .error .IllegalCRTime ∧
        ∀ r, try_from line = .ok r → r.crtime = v)) := by
  have E := parseParts_err_iff (splitPipe line)
  have TF := try_from_eq_parseParts line h11
  refine ⟨fun hv => ⟨fun hlt => ?_, fun hge => ⟨?_, ?_⟩⟩,
    fun t7 hv => ⟨fun hlt => ?_, fun hge => ⟨?_, ?_⟩⟩,
    fun t7 t8 hv => ⟨fun hlt => ?_, fun hge => ⟨?_, ?_⟩⟩,
    fun t7 t8 t9 hv => ⟨fun hlt => ?_, fun hge => ⟨?_, ?_⟩⟩⟩
  · rw [TF]
    exact E.2.2.2.1.mpr ⟨hu, hg, hs, timeOk_false_of _ v hv hlt⟩
  · rw [TF]
    intro hbad
    have hrhs := E.2.2.2.1.mp hbad
    rw [timeOk_true_of _ v hv hge] at hrhs
    simp at hrhs
  · intro r hok
    rw [TF] at hok
    have h7 := (parseParts_ok_inv _ r hok).2.2.2.1.1
    rw [hv] at h7
    exact (Option.some.inj h7).symm
  · rw [TF]
    exact E.2.2.2.2.1.mpr ⟨hu, hg, hs, t7, timeOk_false_of _ v hv hlt⟩
  · rw [TF]
    intro hbad
    have hrhs := E.2.2.2.2.1.mp hbad
    rw [timeOk_true_of _ v hv hge] at hrhs
    simp at hrhs
  · intro r hok
    rw [TF] at hok
    have h8 := (parseParts_ok_inv _ r hok).2.2.2.2.1.1
    rw [hv] at h8
    exact (Option.some.inj h8).symm
  · rw [TF]
    exact E.2.2.2.2.2.1.mpr ⟨hu, hg, hs, t7, t8, timeOk_false_of _ v hv hlt⟩
  · rw [TF]
    intro hbad
    have hrhs := E.2.2.2.2.2.1.mp hbad
    rw [timeOk_true_of _ v hv hge] at hrhs
    simp at hrhs
  · intro r hok
    rw [TF] at hok
    have h9 := (parseParts_ok_inv _ r hok).2.2.2.2.2.1.1
    rw [hv] at h9
    exact (Option.some.inj h9).symm
  · rw [TF]
    exact E.2.2.2.2.2.2.mpr ⟨hu, hg, hs, t7, t8, t9,
      timeOk_false_of _ v hv hlt⟩
  · rw [TF]
    intro hbad
    have hrhs := E.2.2.2.2.2.2.mp hbad
    rw [timeOk_true_of _ v hv hge] at hrhs
    simp at hrhs
  · intro r hok
    rw [TF] at hok
    have h10 := (parseParts_ok_inv _ r hok).2.2.2.2.2.2.1
    rw [hv] at h10
    exact (Option.some.inj h10).symm

/-- Witness for claim C5: the atime segment `-5` is a valid integer but is
rejected with `IllegalATime`. -/
theorem claim_C5_witness : try_from negAtimeLine = .error .IllegalATime :=
  ((claim_C5_timestamp_floor negAtimeLine (-5) (by decide) (by decide)
    (by decide) (by decide)).1 (by decide)).1 (by decide)

/-- Claim C6: a uid, gid or size segment that does not parse as an
unsigned 64-bit integer, including any text with a leading minus sign,
makes the parser fail with that field's own error, and that error occurs
for no other reason. -/
theorem claim_C6_unsigned_fields (line : List Char)
    (h11 : ¬ (splitPipe line).length < 11) :
    ((parseU64 (fieldSegOf (splitPipe line) 4) = none →
        try_from line = .error .IllegalUid)
     ∧ (parseU64 (fieldSegOf (splitPipe line) 4) ≠ none →
        try_from line ≠ .error .IllegalUid))
  ∧ (u64Ok (fieldSegOf (splitPipe line) 4) = true →
      (parseU64 (fieldSegOf (splitPipe line) 5) = none →
        try_from line = .error .IllegalGid)
      ∧ (parseU64 (fieldSegOf (splitPipe line) 5) ≠ none →
        try_from line ≠ .error .IllegalGid))
  ∧ (u64Ok (fieldSegOf (splitPipe line) 4) = true →
      u64Ok (fieldSegOf (splitPipe line) 5) = true →
      (parseU64 (fieldSegOf (splitPipe line) 6) = none →
        try_from line = .error .IllegalSize)
      ∧ (parseU64 (fieldSegOf (splitPipe line) 6) ≠ none →
        try_from line ≠ .error .IllegalSize))
  ∧ (∀ rest : List Char, parseU64 ('-' :: rest) = none) := by
  have E := parseParts_err_iff (splitPipe line)
  have TF := try_from_eq_parseParts line h11
  refine ⟨⟨fun hnone => ?_, fun hsome => ?_⟩,
    fun hu => ⟨fun hnone => ?_, fun hsome => ?_⟩,
    fun hu hg => ⟨fun hnone => ?_, fun hsome => ?_⟩,
    parseU64_neg_none⟩
  · rw [TF]
    exact E.1.mpr ((u64Ok_false_iff _).mpr hnone)
  · rw [TF]
    intro hbad
    exact hsome ((u64Ok_false_iff _).mp (E.1.mp hbad))
  · rw [TF]
    exact E.2.1.mpr ⟨hu, (u64Ok_false_iff _).mpr hnone⟩
  · rw [TF]
    intro hbad
    exact hsome ((u64Ok_false_iff _).mp (E.2.1.mp hbad).2)
  · rw [TF]
    exact E.2.2.1.mpr ⟨hu, hg, (u64Ok_false_iff _).mpr hnone⟩
  · rw [TF]
    intro hbad
    exact hsome ((u64Ok_false_iff _).mp (E.2.2.1.mp hbad).2.2)

/-- Witness for claim C6: the negative text `-1` in the uid position fails
with `IllegalUid`. -/
theorem claim_C6_witness : try_from negUidLine = .error .IllegalUid :=
  (claim_C6_unsigned_fields negUidLine (by decide)).1.1 (by decide)

/-- Claim C10: a digit-only segment denoting a value outside the target
64-bit range makes the parser fail with that field's own error once
validation reaches the field; timestamp segments may carry a sign. -/
theorem claim_C10_out_of_range (line : List Char)
    (h11 : ¬ (splitPipe line).length < 11) :
    (∀ n : Nat, parseDigits (fieldSegOf (splitPipe line) 4) = some n →
      2 ^ 64 ≤ n → try_from line = .error .IllegalUid)
  ∧ (u64Ok (fieldSegOf (splitPipe line) 4) = true →
      ∀ n : Nat, parseDigits (fieldSegOf (splitPipe line) 5) = some n →
      2 ^ 64 ≤ n → try_from line = .error .IllegalGid)
  ∧ (u64Ok (fieldSegOf (splitPipe line) 4) = true →
      u64Ok (fieldSegOf (splitPipe line) 5) = true →
      ∀ n : Nat, parseDigits (fieldSegOf (splitPipe line) 6) = some n →
      2 ^ 64 ≤ n → try_from line = .error .IllegalSize)
  ∧ (u64Ok (fieldSegOf (splitPipe line) 4) = true →
      u64Ok (fieldSegOf (splitPipe line) 5) = true →
      u64Ok (fieldSegOf (splitPipe line) 6) = true →
      ∀ n : Nat,
      (parseDigits (dropPlusSign (fieldSegOf (splitPipe line) 7)) = some n
          ∧ 2 ^ 63 ≤ n)
        ∨ (∃ t, fieldSegOf (splitPipe line) 7 = '-' :: t ∧
            parseDigits t = some n ∧ 2 ^ 63 < n) →
      try_from line = .error .IllegalATime)
  ∧ (u64Ok (fieldSegOf (splitPipe line) 4) = true →
      u64Ok (fieldSegOf (splitPipe line) 5) = true →
      u64Ok (fieldSegOf (splitPipe line) 6) = true →
      timeOk (fieldSegOf (splitPipe line) 7) = true →
      ∀ n : Nat,
      (parseDigits (dropPlusSign (fieldSegOf (splitPipe line) 8)) = some n
          ∧ 2 ^ 63 ≤ n)
        ∨ (∃ t, fieldSegOf (splitPipe line) 8 = '-' :: t ∧
            parseDigits t = some n ∧ 2 ^ 63 < n) →
      try_from line = .error .IllegalMTime)
  ∧ (u64Ok (fieldSegOf (splitPipe line) 4) = true →
      u64Ok (fieldSegOf (splitPipe line) 5) = true →
      u64Ok (fieldSegOf (splitPipe line) 6) = true →
      timeOk (fieldSegOf (splitPipe line) 7) = true →
      timeOk (fieldSegOf (splitPipe line) 8) = true →
      ∀ n : Nat,
      (parseDigits (dropPlusSign (fieldSegOf (splitPipe line) 9)) = some n
          ∧ 2 ^ 63 ≤ n)
        ∨ (∃ t, fieldSegOf (splitPipe line) 9 = '-' :: t ∧
            parseDigits t = some n ∧ 2 ^ 63 < n) →
      try_from line = .error .IllegalCTime)
  ∧ (u64Ok (fieldSegOf (splitPipe line) 4) = true →
      u64Ok (fieldSegOf (splitPipe line) 5) = true →
      u64Ok (fieldSegOf (splitPipe line) 6) = true →
      timeOk (fieldSegOf (splitPipe line) 7) = true →
      timeOk (fieldSegOf (splitPipe line) 8) = true →
      timeOk (fieldSegOf (splitPipe line) 9) = true →
      ∀ n : Nat,
      (parseDigits (dropPlusSign (fieldSegOf (splitPipe line) 10)) = some n
          ∧ 2 ^ 63 ≤ n)
        ∨ (∃ t, fieldSegOf (splitPipe line) 10 = '-' :: t ∧
            parseDigits t = some n ∧ 2 ^ 63 < n) →
      try_from line = .error .IllegalCRTime) := by
  have E := parseParts_err_iff (splitPipe line)
  have TF := try_from_eq_parseParts line h11
  have timeNone : ∀ k n : Nat,
      ((parseDigits (dropPlusSign (fieldSegOf (splitPipe line) k)) = some n
          ∧ 2 ^ 63 ≤ n)
        ∨ (∃ t, fieldSegOf (splitPipe line) k = '-' :: t ∧
            parseDigits t = some n ∧ 2 ^ 63 < n)) →
      parseI64 (fieldSegOf (splitPipe line) k) = none := by
    intro k n hcase
    rcases hcase with ⟨hpd, hbig⟩ | ⟨t, he, hpd, hbig⟩
    · exact parseI64_none_of_big _ n hpd hbig
    · rw [he]
      exact parseI64_neg_none_of_big t n hpd hbig
  refine ⟨fun n hpd hbig => ?_, fun hu n hpd hbig => ?_,
    fun hu hg n hpd hbig => ?_, fun hu hg hs n hcase => ?_,
    fun hu hg hs t7 n hcase => ?_, fun hu hg hs t7 t8 n hcase => ?_,
    fun hu hg hs t7 t8 t9 n hcase => ?_⟩
  · rw [TF]
    exact E.1.mpr ((u64Ok_false_iff _).mpr (parseU64_none_of_big _ n hpd hbig))
  · rw [TF]
    exact E.2.1.mpr ⟨hu,
      (u64Ok_false_iff _).mpr (parseU64_none_of_big _ n hpd hbig)⟩
  · rw [TF]
    exact E.2.2.1.mpr ⟨hu, hg,
      (u64Ok_false_iff _).mpr (parseU64_none_of_big _ n hpd hbig)⟩
  · rw [TF]
    exact E.2.2.2.1.mpr ⟨hu, hg, hs,
      timeOk_false_of_none _ (timeNone 7 n hcase)⟩
  · rw [TF]
    exact E.2.2.2.2.1.mpr ⟨hu, hg, hs, t7,
      timeOk_false_of_none _ (timeNone 8 n hcase)⟩
  · rw [TF]
    exact E.2.2.2.2.2.1.mpr ⟨hu, hg, hs, t7, t8,
      timeOk_false_of_none _ (timeNone 9 n hcase)⟩
  · rw [TF]
    exact E.2.2.2.2.2.2.mpr ⟨hu, hg, hs, t7, t8, t9,
      timeOk_false_of_none _ (timeNone 10 n hcase)⟩

/-- Witness for claim C10: a uid segment denoting `2 ^ 64` fails with
`IllegalUid` instead of wrapping. -/
theorem claim_C10_witness : try_from hugeUidLine = .error .IllegalUid :=
  (claim_C10_out_of_range hugeUidLine (by decide)).1 18446744073709551616
    (by decide) (by decide)

/-- Claim C1: for a record whose name embeds at least one pipe while the
other text fields are pipe-free, and whose numeric fields lie in the data
model's ranges, parsing the formatted line succeeds and recovers the name
exactly. -/
theorem claim_C1_piped_name_recovery (r : Bodyfile3Line)
    (hpipe : '|' ∈ r.name)
    (hmd5 : ∀ c ∈ r.md5, c ≠ '|') (hinode : ∀ c ∈ r.inode, c ≠ '|')
    (hmode : ∀ c ∈ r.mode_as_string, c ≠ '|')
    (hrange : InRange r) :
    ∃ r2, try_from (format r) = .ok r2 ∧ r2.name = r.name := by
  obtain ⟨h1, h2, h3, ⟨h4a, h4b⟩, ⟨h5a, h5b⟩, ⟨h6a, h6b⟩, ⟨h7a, h7b⟩⟩ :=
    hrange
  exact ⟨r, try_from_format_eq r hmd5 hinode hmode h1 h2 h3 h4a h4b h5a h5b
    h6a h6b h7a h7b, rfl⟩

/-- Witness for claim C1 at a record whose name is `"ls -l |wc"`. -/
theorem claim_C1_witness :
    ∃ r2, try_from (format pipedNameRecord) = .ok r2 ∧
      r2.name = pipedNameRecord.name :=
  claim_C1_piped_name_recovery pipedNameRecord (by decide) (by decide)
    (by decide) (by decide) (by decide)

/-- Claim C2, counterexample: a record whose name is pipe-free but whose
md5, inode and mode embed pipes parses back to a different record, so the
round trip fails when only the name is constrained. -/
theorem claim_C2_counterexample :
    (∀ c ∈ pipedTextFields.name, c ≠ '|') ∧
    try_from (format pipedTextFields) ≠ .ok pipedTextFields := by decide

/-- Claim C2 (amended): the round trip `parse (format r) = ok r` holds for
every record whose name, md5, inode and mode are all pipe-free and whose
numeric fields lie in the data model's ranges. -/
theorem claim_C2_roundtrip (r : Bodyfile3Line)
    (hname : ∀ c ∈ r.name, c ≠ '|')
    (hmd5 : ∀ c ∈ r.md5, c ≠ '|') (hinode : ∀ c ∈ r.inode, c ≠ '|')
    (hmode : ∀ c ∈ r.mode_as_string, c ≠ '|')
    (hrange : InRange r) :
    try_from (format r) = .ok r := by
  obtain ⟨h1, h2, h3, ⟨h4a, h4b⟩, ⟨h5a, h5b⟩, ⟨h6a, h6b⟩, ⟨h7a, h7b⟩⟩ :=
    hrange
  exact try_from_format_eq r hmd5 hinode hmode h1 h2 h3 h4a h4b h5a h5b h6a
    h6b h7a h7b

/-- Witness for the amended claim C2 at the `Display` doctest record. -/
theorem claim_C2_witness :
    try_from (format sampleRecord) = .ok sampleRecord :=
  claim_C2_roundtrip sampleRecord (by decide) (by decide) (by decide)
    (by decide) (by decide)

/-- Claim C8: formatting always succeeds, producing the eleven fields
joined by pipes in schema order, the four text fields verbatim and the
seven numeric fields in decimal (digit strings denoting the value, with a
leading minus sign exactly for negatives). -/
theorem claim_C8_format_shape :
    (∀ r : Bodyfile3Line, format r =
      joinPipe [r.md5, r.name, r.inode, r.mode_as_string,
        natToString r.uid, natToString r.gid, natToString r.size,
        intToString r.atime, intToString r.mtime, intToString r.ctime,
        intToString r.crtime]) ∧
    (∀ n : Nat, (natToString n).all isDigitChar = true ∧
      digitsVal (natToString n) = n) ∧
    (∀ i : Int, 0 ≤ i → intToString i = natToString i.toNat) ∧
    (∀ i : Int, i < 0 → intToString i = '-' :: natToString (-i).toNat) := by
  refine ⟨fun r => rfl,
    fun n => ⟨natToString_all_digits n, digitsVal_natToString n⟩,
    fun i hi => ?_, fun i hi => ?_⟩
  · unfold intToString
    rw [if_neg (by omega)]
  · unfold intToString
    rw [if_pos hi]

/-- Witness for claim C8 at the default record and at the integer five. -/
theorem claim_C8_witness :
    format Bodyfile3Line.new = joinPipe
      [Bodyfile3Line.new.md5, Bodyfile3Line.new.name,
       Bodyfile3Line.new.inode, Bodyfile3Line.new.mode_as_string,
       natToString Bodyfile3Line.new.uid, natToString Bodyfile3Line.new.gid,
       natToString Bodyfile3Line.new.size,
       intToString Bodyfile3Line.new.atime,
       intToString Bodyfile3Line.new.mtime,
       intToString Bodyfile3Line.new.ctime,
       intToString Bodyfile3Line.new.crtime] ∧
    intToString 5 = natToString ((5 : Int)).toNat :=
  ⟨claim_C8_format_shape.1 Bodyfile3Line.new,
   claim_C8_format_shape.2.2.1 5 (by decide)⟩

end Bodyfile
